import Mathlib

/-!
Shallow embedding of the ChatTrix ephemeral room-state coordinator.

The store layer is `src/src/lib/redisStore.ts` (class `RedisStore`); the
action handlers are the Pages-Router socket API handler (`handleJoinRoom`,
`handleSendMessage`, `handleGetMessages`, `handleKickUser`,
`handleGetTypingStatus`, ...).

The embedding models the deterministic in-process fallback path of the
store (`isConnected = false`), which is the reference semantics the
handlers observe; the Redis list branch of `addRoomMessage` /
`getRoomMessages` (lpush + ltrim + lrange) is additionally modelled at the
list level for the backend-equivalence comparison.  JavaScript `Map`s are
modelled as insertion-ordered association lists, the wall clock
(`Date.now()`) as an explicit `Nat` argument, and `setTimeout` /
`clearTimeout` as a list of live timer ids plus a fresh-id counter.
-/

namespace ChatTrix

/-- `Participant` record (redisStore.ts `ParticipantSchema`). -/
structure Participant where
  nickname : String
  avatar : String
  joinedAt : String
  isRoomCreator : Bool
deriving DecidableEq, Repr

/-- `Message` record (redisStore.ts `MessageSchema`). -/
structure Message where
  id : String
  text : String
  userId : String
  nickname : String
  avatar : String
  timestamp : String
  isInvisible : Bool
deriving DecidableEq, Repr

/-- One fallback typing-status entry:
`{ nickname, expiresAt, timerId }` (redisStore.ts line 38). -/
structure TypingEntry where
  nickname : String
  expiresAt : Nat
  timerId : Option Nat
deriving DecidableEq, Repr

/-! ### JavaScript `Map` as an insertion-ordered association list

A JS `Map` keeps at most one entry per key, preserves insertion order,
updates a present key in place, and appends an absent key at the end. -/

/-- `Map.get`: the value stored at key `k`, if any. -/
def alGet : List (String × α) → String → Option α
  | [], _ => none
  | p :: l, k => if p.1 = k then some p.2 else alGet l k

/-- `Map.set`: overwrite in place if the key is present, else append. -/
def alSet : List (String × α) → String → α → List (String × α)
  | [], k, v => [(k, v)]
  | p :: l, k, v => if p.1 = k then (k, v) :: l else p :: alSet l k v

/-- `Map.delete`: remove the entry stored at key `k`. -/
def alDel : List (String × α) → String → List (String × α)
  | [], _ => []
  | p :: l, k => if p.1 = k then alDel l k else p :: alDel l k

/-- The keys of a `Map` are pairwise distinct. -/
def keysNodup (l : List (String × α)) : Prop := (l.map Prod.fst).Nodup

theorem alGet_alSet_self (l : List (String × α)) (k : String) (v : α) :
    alGet (alSet l k v) k = some v := by
  induction l with
  | nil => simp [alGet, alSet]
  | cons hd tl ih =>
    by_cases hk : hd.1 = k
    · simp [alGet, alSet, hk]
    · simp [alGet, alSet, hk, ih]

theorem alGet_alSet_ne (l : List (String × α)) (k k' : String) (v : α)
    (h : k' ≠ k) : alGet (alSet l k v) k' = alGet l k' := by
  induction l with
  | nil => simp [alGet, alSet, Ne.symm h]
  | cons hd tl ih =>
    by_cases hk : hd.1 = k
    · simp [alGet, alSet, hk, Ne.symm h, h]
    · by_cases hk' : hd.1 = k'
      · simp [alGet, alSet, hk, hk', h]
      · simp [alGet, alSet, hk, hk', ih]

theorem alGet_alDel_self (l : List (String × α)) (k : String) :
    alGet (alDel l k) k = none := by
  induction l with
  | nil => simp [alGet, alDel]
  | cons hd tl ih =>
    by_cases hk : hd.1 = k
    · simp [alDel, hk, ih]
    · simp [alGet, alDel, hk, ih]

theorem alGet_alDel_ne (l : List (String × α)) (k k' : String) (h : k' ≠ k) :
    alGet (alDel l k) k' = alGet l k' := by
  induction l with
  | nil => simp [alDel]
  | cons hd tl ih =>
    by_cases hk : hd.1 = k
    · simp [alGet, alDel, hk, Ne.symm h, ih]
    · by_cases hk' : hd.1 = k'
      · simp [alGet, alDel, hk, hk', h]
      · simp [alGet, alDel, hk, hk', ih]

/-- Membership in an `alSet` result: the freshly written pair or an old pair. -/
theorem mem_alSet (l : List (String × α)) (k : String) (v : α) (p : String × α)
    (hp : p ∈ alSet l k v) : p = (k, v) ∨ p ∈ l := by
  induction l with
  | nil => simpa [alSet] using hp
  | cons hd tl ih =>
    by_cases hk : hd.1 = k
    · simp only [alSet, if_pos hk, List.mem_cons] at hp
      rcases hp with hp | hp
      · left; exact hp
      · right; exact List.mem_cons_of_mem _ hp
    · simp only [alSet, if_neg hk, List.mem_cons] at hp
      rcases hp with hp | hp
      · right; exact hp ▸ List.mem_cons_self _ _
      · rcases ih hp with h | h
        · left; exact h
        · right; exact List.mem_cons_of_mem _ h

/-- With pairwise-distinct keys, the only entry of `alSet l k v` stored at
key `k` is the freshly written pair. -/
theorem eq_of_mem_alSet_key (l : List (String × α)) (k : String) (v : α)
    (hnd : keysNodup l) (p : String × α) (hp : p ∈ alSet l k v)
    (hk : p.1 = k) : p = (k, v) := by
  induction l with
  | nil =>
    simpa [alSet] using hp
  | cons hd tl ih =>
    simp only [keysNodup, List.map_cons, List.nodup_cons] at hnd
    by_cases hhd : hd.1 = k
    · simp only [alSet, if_pos hhd, List.mem_cons] at hp
      rcases hp with hp | hp
      · exact hp
      · exfalso
        exact hnd.1 (by
          rw [List.mem_map]
          exact ⟨p, hp, by rw [hk, hhd]⟩)
    · simp only [alSet, if_neg hhd, List.mem_cons] at hp
      rcases hp with hp | hp
      · exact absurd (hp ▸ hk) hhd
      · exact ih hnd.2 hp

/-- If no entry of `l` stored at key `k` satisfies `pred`, then the filtered
map has no entry at `k`. -/
theorem alGet_filter_eq_none (l : List (String × α)) (k : String)
    (pred : String × α → Bool)
    (h : ∀ p ∈ l, p.1 = k → pred p = false) :
    alGet (l.filter pred) k = none := by
  induction l with
  | nil => simp [alGet]
  | cons hd tl ih =>
    by_cases hpred : pred hd = true
    · rw [List.filter_cons_of_pos hpred]
      have hhd : hd.1 ≠ k := by
        intro he
        rw [h hd (List.mem_cons_self _ _) he] at hpred
        exact Bool.false_ne_true hpred
      simp only [alGet, if_neg hhd]
      exact ih (fun p hp => h p (List.mem_cons_of_mem _ hp))
    · rw [List.filter_cons_of_neg hpred]
      exact ih (fun p hp => h p (List.mem_cons_of_mem _ hp))

/-! ### The store state (`RedisStore.fallbackMaps` plus the timer world)

`liveTimers` records the ids of scheduled-but-not-yet-fired `setTimeout`
timers; `nextTimerId` supplies fresh ids.  `clearTimeout` removes one id. -/

/-- The in-process fallback state of `RedisStore` (redisStore.ts lines 33-39),
together with the `setTimeout`/`clearTimeout` timer world. -/
@[ext] structure Store where
  roomParticipants : String → List (String × Participant)
  userRooms : String → Option String
  roomCreators : String → Option String
  roomMessages : String → List Message
  typingStatus : String → List (String × TypingEntry)
  liveTimers : List Nat
  nextTimerId : Nat

/-- The store of a fresh process: every map empty, no timers. -/
def Store.empty : Store where
  roomParticipants := fun _ => []
  userRooms := fun _ => none
  roomCreators := fun _ => none
  roomMessages := fun _ => []
  typingStatus := fun _ => []
  liveTimers := []
  nextTimerId := 0

/-- `clearTimeout` on an optional timer id. -/
def clearTimeoutOpt (timers : List Nat) (tid : Option Nat) : List Nat :=
  match tid with
  | some t => timers.erase t
  | none => timers

/-! ### Store operations (fallback path of redisStore.ts) -/

/-- `getRoomParticipants` (fallback): the room's participant map, empty if
the room is unknown. -/
def getRoomParticipants (s : Store) (roomId : String) :
    List (String × Participant) :=
  s.roomParticipants roomId

/-- `setRoomParticipant` (fallback): upsert into the room's participant map. -/
def setRoomParticipant (s : Store) (roomId userId : String)
    (participant : Participant) : Store :=
  { s with roomParticipants := fun r =>
      if r = roomId then alSet (s.roomParticipants roomId) userId participant
      else s.roomParticipants r }

/-- `removeRoomParticipant` (fallback): delete the user's entry; the source's
removal of an emptied room key is observationally the empty map. -/
def removeRoomParticipant (s : Store) (roomId userId : String) : Store :=
  { s with roomParticipants := fun r =>
      if r = roomId then alDel (s.roomParticipants roomId) userId
      else s.roomParticipants r }

/-- `hasRoomParticipant` (fallback). -/
def hasRoomParticipant (s : Store) (roomId userId : String) : Bool :=
  (alGet (s.roomParticipants roomId) userId).isSome

/-- `getUserRoom` (fallback): `this.fallbackMaps.userRooms.get(userId) || null`
— a falsy (empty-string) stored value comes back as null. -/
def getUserRoom (s : Store) (userId : String) : Option String :=
  match s.userRooms userId with
  | some r => if r = "" then none else some r
  | none => none

/-- `setUserRoom` (fallback). -/
def setUserRoom (s : Store) (userId roomId : String) : Store :=
  { s with userRooms := fun u =>
      if u = userId then some roomId else s.userRooms u }

/-- `removeUserRoom` (fallback). -/
def removeUserRoom (s : Store) (userId : String) : Store :=
  { s with userRooms := fun u =>
      if u = userId then none else s.userRooms u }

/-- `getRoomCreator` (fallback): `roomCreators.get(roomId) || null` — a falsy
(empty-string) stored value comes back as null. -/
def getRoomCreator (s : Store) (roomId : String) : Option String :=
  match s.roomCreators roomId with
  | some c => if c = "" then none else some c
  | none => none

/-- `setRoomCreator` (fallback). -/
def setRoomCreator (s : Store) (roomId creatorId : String) : Store :=
  { s with roomCreators := fun r =>
      if r = roomId then some creatorId else s.roomCreators r }

/-- `removeRoomCreator` (fallback). -/
def removeRoomCreator (s : Store) (roomId : String) : Store :=
  { s with roomCreators := fun r =>
      if r = roomId then none else s.roomCreators r }

/-- `getRoomMessages` (fallback): the stored per-room array, `[]` if absent. -/
def getRoomMessages (s : Store) (roomId : String) : List Message :=
  s.roomMessages roomId

/-- One fallback `addRoomMessage` step on the per-room array:
`messages.push(message)` then, when the length exceeds 100,
`messages.slice(-100)` (keep the last 100). -/
def pushCapped (msgs : List Message) (m : Message) : List Message :=
  let pushed := msgs ++ [m]
  if pushed.length > 100 then pushed.drop (pushed.length - 100) else pushed

/-- `addRoomMessage` (fallback): push and trim to the last 100. -/
def addRoomMessage (s : Store) (roomId : String) (m : Message) : Store :=
  { s with roomMessages := fun r =>
      if r = roomId then pushCapped (s.roomMessages roomId) m
      else s.roomMessages r }

/-- `clearRoomMessages` (fallback). -/
def clearRoomMessages (s : Store) (roomId : String) : Store :=
  { s with roomMessages := fun r =>
      if r = roomId then [] else s.roomMessages r }

/-- `setUserTypingStatus` (fallback maps branch; `now` is `Date.now()`).
With `isTyping = true`: clear the user's previous timer, schedule a fresh
5-second timer, and store `{nickname, expiresAt = now + 5000, timerId}`.
With `isTyping = false`: clear the timer and delete the entry. -/
def setUserTypingStatus (s : Store) (roomId userId nickname : String)
    (isTyping : Bool) (now : Nat) : Store :=
  let roomTyping := s.typingStatus roomId
  let oldTimer := (alGet roomTyping userId).bind TypingEntry.timerId
  if isTyping then
    let tid := s.nextTimerId
    let entry : TypingEntry := ⟨nickname, now + 5000, some tid⟩
    { s with
      typingStatus := fun r =>
        if r = roomId then alSet roomTyping userId entry
        else s.typingStatus r,
      liveTimers := tid :: clearTimeoutOpt s.liveTimers oldTimer,
      nextTimerId := tid + 1 }
  else
    { s with
      typingStatus := fun r =>
        if r = roomId then alDel roomTyping userId
        else s.typingStatus r,
      liveTimers := clearTimeoutOpt s.liveTimers oldTimer }

/-- `getRoomTypingUsers` (fallback branch; `now` is `Date.now()`): collect
the nicknames of unexpired entries other than `excludeUserId`, lazily
deleting every expired entry (and clearing its timer) at read time. -/
def getRoomTypingUsers (s : Store) (roomId : String)
    (excludeUserId : Option String) (now : Nat) : List String × Store :=
  let roomTyping := s.typingStatus roomId
  let names := (roomTyping.filter
      (fun p => decide (now < p.2.expiresAt) && decide (some p.1 ≠ excludeUserId))).map
      (fun p => p.2.nickname)
  let expired := roomTyping.filter (fun p => decide (p.2.expiresAt ≤ now))
  let kept := roomTyping.filter (fun p => decide (now < p.2.expiresAt))
  (names,
   { s with
     typingStatus := fun r => if r = roomId then kept else s.typingStatus r,
     liveTimers := expired.foldl (fun ts p => clearTimeoutOpt ts p.2.timerId)
       s.liveTimers })

/-- Private `clearUserTypingStatus` helper (redisStore.ts lines 517-531). -/
def clearUserTypingStatus (s : Store) (userId roomId : String) : Store :=
  let roomTyping := s.typingStatus roomId
  { s with
    typingStatus := fun r =>
      if r = roomId then alDel roomTyping userId else s.typingStatus r,
    liveTimers := clearTimeoutOpt s.liveTimers
      ((alGet roomTyping userId).bind TypingEntry.timerId) }

/-- `joinRoom` (fallback): `setUserRoom` then `setRoomParticipant`. -/
def joinRoom (s : Store) (userId roomId : String)
    (participant : Participant) : Store :=
  setRoomParticipant (setUserRoom s userId roomId) roomId userId participant

/-- `leaveRoom` (fallback): `removeUserRoom`, `removeRoomParticipant`, then
`clearUserTypingStatus`. -/
def leaveRoom (s : Store) (userId roomId : String) : Store :=
  clearUserTypingStatus
    (removeRoomParticipant (removeUserRoom s userId) roomId userId)
    userId roomId

/-- `cleanupEmptyRoom` (fallback): when the room has no participants, delete
its creator record, its message list, and its typing map (clearing every
typing timer); otherwise do nothing. -/
def cleanupEmptyRoom (s : Store) (roomId : String) : Store :=
  if (s.roomParticipants roomId).length = 0 then
    let roomTyping := s.typingStatus roomId
    { s with
      roomCreators := fun r =>
        if r = roomId then none else s.roomCreators r,
      roomMessages := fun r =>
        if r = roomId then [] else s.roomMessages r,
      typingStatus := fun r =>
        if r = roomId then [] else s.typingStatus r,
      liveTimers := roomTyping.foldl
        (fun ts p => clearTimeoutOpt ts p.2.timerId) s.liveTimers }
  else s

/-! ### The primary-backend (Redis) message-list path, at the list level

`addRoomMessage` on the connected path runs `lpush` (prepend) and
`ltrim 0 99` (keep the first 100); `getRoomMessages` runs `lrange 0 -1`
(return the whole list).  Modelled as a pure fold over the append sequence. -/

/-- One primary-path `addRoomMessage` step: `lpush` then `ltrim 0, 99`. -/
def lpushTrimmed (msgs : List Message) (m : Message) : List Message :=
  (m :: msgs).take 100

/-- The list `lrange 0 -1` observes after appending `l` in order on the
primary backend, starting from an absent key. -/
def primaryObservedMessages (l : List Message) : List Message :=
  l.foldl lpushTrimmed []

/-- The list the fallback path observes after appending `l` in order,
starting from an absent key. -/
def fallbackObservedMessages (l : List Message) : List Message :=
  l.foldl pushCapped []

/-! ### Action handlers (Pages-Router socket API, `src/unnamed/part_003`) -/

/-- The `(userId, nickname, avatar)` projection returned by join-room. -/
structure ParticipantView where
  userId : String
  nickname : String
  avatar : String
deriving DecidableEq, Repr

/-- Success payload of `handleJoinRoom`. -/
structure JoinPayload where
  participants : List ParticipantView
  isCreator : Bool
deriving DecidableEq, Repr

/-- Validated join-room request data (`SocketDataSchema`). -/
structure JoinInput where
  roomId : String
  userId : String
  nickname : String
  avatar : String
  isRoomCreator : Bool
deriving DecidableEq, Repr

/-- The leave-previous-room prologue of `handleJoinRoom` (lines 290-309):
when the user is mapped to a different room, remove them from that room's
participants and drop the mapping. -/
def leavePreviousRoom (s : Store) (userId roomId : String) : Store :=
  match getUserRoom s userId with
  | some previousRoom =>
      if previousRoom ≠ roomId then
        removeUserRoom (removeRoomParticipant s previousRoom userId) userId
      else s
  | none => s

/-- The creator-resolution step of `handleJoinRoom` (lines 322-330): set the
joining user as creator when none is recorded; when one is recorded and the
join claims creator, re-set it only when the claim matches. -/
def resolveCreator (s : Store) (roomId userId : String)
    (claimsCreator : Bool) : Store :=
  match getRoomCreator s roomId with
  | none => setRoomCreator s roomId userId
  | some existingCreator =>
      if claimsCreator ∧ existingCreator = userId then
        setRoomCreator s roomId userId
      else s

/-- `handleJoinRoom` (`ts` is the `new Date().toISOString()` join stamp). -/
def handleJoinRoom (s : Store) (inp : JoinInput) (ts : String) :
    JoinPayload × Store :=
  let s1 := leavePreviousRoom s inp.userId inp.roomId
  let participant : Participant :=
    ⟨inp.nickname, inp.avatar, ts, inp.isRoomCreator⟩
  let s2 := joinRoom s1 inp.userId inp.roomId participant
  let s3 := resolveCreator s2 inp.roomId inp.userId inp.isRoomCreator
  let participants := (getRoomParticipants s3 inp.roomId).map
    (fun p => ParticipantView.mk p.1 p.2.nickname p.2.avatar)
  let isCreator := decide (getRoomCreator s3 inp.roomId = some inp.userId)
  (⟨participants, isCreator⟩, s3)

/-- Validated send-message request data (`MessageDataSchema`). -/
structure SendInput where
  roomId : String
  message : String
  userId : String
  nickname : String
  avatar : String
  isInvisible : Bool
deriving DecidableEq, Repr

/-- Result of `handleSendMessage`. -/
inductive SendResult where
  /-- 403 `User not in room`. -/
  | notInRoom : SendResult
  /-- 200 with the constructed message. -/
  | sent (m : Message) : SendResult
deriving DecidableEq, Repr

/-- HTTP status of a `handleSendMessage` outcome. -/
def SendResult.status : SendResult → Nat
  | .notInRoom => 403
  | .sent _ => 200

/-- The rendering of `new Date(ms).toISOString()`: an injective image of the
millisecond clock (the concrete characters are irrelevant to the claims). -/
def isoOfMs (ms : Nat) : String := "iso:" ++ toString ms

/-- The message `handleSendMessage` constructs at clock `now`:
`id = Date.now().toString()`, `timestamp = new Date().toISOString()`. -/
def builtMessage (inp : SendInput) (now : Nat) : Message :=
  ⟨toString now, inp.message, inp.userId, inp.nickname, inp.avatar,
   isoOfMs now, inp.isInvisible⟩

/-- `handleSendMessage` (`now` is `Date.now()`). -/
def handleSendMessage (s : Store) (inp : SendInput) (now : Nat) :
    SendResult × Store :=
  if hasRoomParticipant s inp.roomId inp.userId then
    let m := builtMessage inp now
    (.sent m, addRoomMessage s inp.roomId m)
  else (.notInRoom, s)

/-- Result of `handleGetMessages`: the handler has no failure branch short
of an internal exception — in particular no 404 path. -/
inductive GetMessagesResult where
  /-- 200 with the room's message list. -/
  | ok (messages : List Message) : GetMessagesResult
deriving DecidableEq, Repr

/-- HTTP status of a `handleGetMessages` outcome. -/
def GetMessagesResult.status : GetMessagesResult → Nat
  | .ok _ => 200

/-- `handleGetMessages`: no room-existence or membership check. -/
def handleGetMessages (s : Store) (roomId : String) :
    GetMessagesResult × Store :=
  (.ok (getRoomMessages s roomId), s)

/-- Result of `handleKickUser`. -/
inductive KickResult where
  /-- 404 `Room not found` (zero participants). -/
  | roomNotFound : KickResult
  /-- 404 `Target user not found`. -/
  | targetNotFound : KickResult
  /-- 403 `Forbidden` (kicker is not the recorded creator). -/
  | forbidden : KickResult
  /-- 400 `Cannot kick yourself`. -/
  | invalidSelfKick : KickResult
  /-- 200 `User kicked successfully`. -/
  | kicked : KickResult
deriving DecidableEq, Repr

/-- HTTP status of a `handleKickUser` outcome. -/
def KickResult.status : KickResult → Nat
  | .roomNotFound => 404
  | .targetNotFound => 404
  | .forbidden => 403
  | .invalidSelfKick => 400
  | .kicked => 200

/-- `handleKickUser`: the checks in source order, then
`removeUserRoom(target)` followed by `removeRoomParticipant` — and no
`cleanupEmptyRoom`. -/
def handleKickUser (s : Store) (roomId targetUserId kickedBy : String) :
    KickResult × Store :=
  if (getRoomParticipants s roomId).length = 0 then
    (.roomNotFound, s)
  else if ¬ hasRoomParticipant s roomId targetUserId then
    (.targetNotFound, s)
  else
    match getRoomCreator s roomId with
    | none => (.forbidden, s)
    | some roomCreator =>
        if roomCreator ≠ kickedBy then (.forbidden, s)
        else if targetUserId = kickedBy then (.invalidSelfKick, s)
        else
          (.kicked,
           removeRoomParticipant (removeUserRoom s targetUserId)
             roomId targetUserId)

/-- Result of `handleGetTypingStatus`. -/
inductive TypingStatusResult where
  /-- 404 `Room not found` (zero participants). -/
  | roomNotFound : TypingStatusResult
  /-- 200 with the typing nicknames. -/
  | ok (typingStatus : List String) : TypingStatusResult
deriving DecidableEq, Repr

/-- HTTP status of a `handleGetTypingStatus` outcome. -/
def TypingStatusResult.status : TypingStatusResult → Nat
  | .roomNotFound => 404
  | .ok _ => 200

/-- `handleGetTypingStatus` (`now` is `Date.now()` at the read): 404 when the
room has zero participants, else the typing nicknames with no exclusion. -/
def handleGetTypingStatus (s : Store) (roomId : String) (now : Nat) :
    TypingStatusResult × Store :=
  if (getRoomParticipants s roomId).length = 0 then
    (.roomNotFound, s)
  else
    let r := getRoomTypingUsers s roomId none now
    (.ok r.1, r.2)

/-! ### Field-projection lemmas for the store operations -/

theorem roomCreators_setUserRoom (s : Store) (u r : String) :
    (setUserRoom s u r).roomCreators = s.roomCreators := rfl

theorem roomCreators_removeUserRoom (s : Store) (u : String) :
    (removeUserRoom s u).roomCreators = s.roomCreators := rfl

theorem roomCreators_setRoomParticipant (s : Store) (r u : String)
    (p : Participant) :
    (setRoomParticipant s r u p).roomCreators = s.roomCreators := rfl

theorem roomCreators_removeRoomParticipant (s : Store) (r u : String) :
    (removeRoomParticipant s r u).roomCreators = s.roomCreators := rfl

theorem roomCreators_joinRoom (s : Store) (u r : String) (p : Participant) :
    (joinRoom s u r p).roomCreators = s.roomCreators := rfl

theorem roomCreators_leavePreviousRoom (s : Store) (u r : String) :
    (leavePreviousRoom s u r).roomCreators = s.roomCreators := by
  unfold leavePreviousRoom
  cases getUserRoom s u with
  | none => rfl
  | some p =>
      dsimp only
      split <;> rfl

theorem userRooms_resolveCreator (s : Store) (r u : String) (c : Bool) :
    (resolveCreator s r u c).userRooms = s.userRooms := by
  unfold resolveCreator
  cases getRoomCreator s r with
  | none => rfl
  | some e =>
      dsimp only
      split <;> rfl

theorem roomParticipants_resolveCreator (s : Store) (r u : String) (c : Bool) :
    (resolveCreator s r u c).roomParticipants = s.roomParticipants := by
  unfold resolveCreator
  cases getRoomCreator s r with
  | none => rfl
  | some e =>
      dsimp only
      split <;> rfl

theorem getRoomCreator_congr (s s' : Store) (r : String)
    (h : s'.roomCreators = s.roomCreators) :
    getRoomCreator s' r = getRoomCreator s r := by
  unfold getRoomCreator; rw [h]

/-! ### C1 — creator resolution on join -/

/-- C1.  For every join-room request: if the room has no recorded creator
the joining user becomes the recorded creator; if a (non-empty) creator `C`
is already recorded, the join leaves the recorded creator unchanged — in
particular a `claimsCreator` flag from a user other than `C` never
overwrites `C`, and a matching claim merely re-affirms `C`. -/
theorem joinRoom_creator_resolution (s : Store) (inp : JoinInput)
    (ts : String) :
    (s.roomCreators inp.roomId = none →
      ((handleJoinRoom s inp ts).2).roomCreators inp.roomId =
        some inp.userId) ∧
    (∀ C, s.roomCreators inp.roomId = some C → C ≠ "" →
      ((handleJoinRoom s inp ts).2).roomCreators inp.roomId = some C) := by
  have hpre :
      ((joinRoom (leavePreviousRoom s inp.userId inp.roomId) inp.userId
        inp.roomId ⟨inp.nickname, inp.avatar, ts, inp.isRoomCreator⟩)).roomCreators
        = s.roomCreators := by
    rw [roomCreators_joinRoom, roomCreators_leavePreviousRoom]
  constructor
  · intro h
    show (resolveCreator _ inp.roomId inp.userId inp.isRoomCreator).roomCreators
        inp.roomId = some inp.userId
    unfold resolveCreator
    rw [getRoomCreator_congr s _ inp.roomId hpre]
    have hg : getRoomCreator s inp.roomId = none := by
      unfold getRoomCreator; rw [h]
    rw [hg]
    simp [setRoomCreator]
  · intro C hC hCne
    show (resolveCreator _ inp.roomId inp.userId inp.isRoomCreator).roomCreators
        inp.roomId = some C
    unfold resolveCreator
    rw [getRoomCreator_congr s _ inp.roomId hpre]
    have hg : getRoomCreator s inp.roomId = some C := by
      unfold getRoomCreator; rw [hC]; simp [hCne]
    rw [hg]
    dsimp only
    by_cases hcl : inp.isRoomCreator = true ∧ C = inp.userId
    · rw [if_pos hcl]
      simp [setRoomCreator, hcl.2]
    · rw [if_neg hcl]
      rw [hpre, hC]

/-- Witness for C1 at concrete inputs: a first join of an empty room records
the joiner as creator, and a creator-claiming join by `u2` of a room whose
recorded creator is `u1` leaves `u1` recorded. -/
theorem joinRoom_creator_resolution_witness :
    (Store.empty.roomCreators "R" = none ∧
     ((handleJoinRoom Store.empty ⟨"R", "u1", "Alice", "a", false⟩
        "t0").2).roomCreators "R" = some "u1") ∧
    ((setRoomCreator Store.empty "R" "u1").roomCreators "R" = some "u1" ∧
     "u1" ≠ "" ∧
     ((handleJoinRoom (setRoomCreator Store.empty "R" "u1")
        ⟨"R", "u2", "Bob", "b", true⟩ "t1").2).roomCreators "R" =
       some "u1") :=
  ⟨⟨rfl, (joinRoom_creator_resolution Store.empty
      ⟨"R", "u1", "Alice", "a", false⟩ "t0").1 rfl⟩,
   ⟨by simp [setRoomCreator, Store.empty], by decide,
    (joinRoom_creator_resolution (setRoomCreator Store.empty "R" "u1")
      ⟨"R", "u2", "Bob", "b", true⟩ "t1").2 "u1"
      (by simp [setRoomCreator, Store.empty]) (by decide)⟩⟩

/-! ### C2 / C3 — kick-user authorization and rejection order -/

/-- Shared demo store: room `R` holds participants `u1` (creator) and `u2`. -/
def kickDemoStore : Store :=
  joinRoom (joinRoom (setRoomCreator Store.empty "R" "u1") "u1" "R"
    ⟨"Alice", "a", "t0", true⟩) "u2" "R" ⟨"Bob", "b", "t1", false⟩

/-- C2 counterexample: in `kickDemoStore` the kicker `u2` is not the
recorded creator (`u1` is), yet a kick-user call against the non-participant
target `u3` answers 404 `Target user not found`, not 403 Forbidden. -/
theorem kick_noncreator_counterexample :
    getRoomCreator kickDemoStore "R" = some "u1" ∧
    getRoomCreator kickDemoStore "R" ≠ some "u2" ∧
    (handleKickUser kickDemoStore "R" "u3" "u2").1 =
      KickResult.targetNotFound ∧
    (handleKickUser kickDemoStore "R" "u3" "u2").1.status = 404 ∧
    (handleKickUser kickDemoStore "R" "u3" "u2").1 ≠ KickResult.forbidden :=
  ⟨by decide, by decide, by decide, by decide, by decide⟩

/-- C2 (amended).  For every kick-user request against a non-empty room
whose target is a participant, if `kickedBy` is not the recorded creator the
response is Forbidden (403) and the whole store — in particular the room's
participant set and the target's user-room mapping — is unchanged. -/
theorem kick_noncreator_forbidden (s : Store)
    (roomId targetUserId kickedBy : String)
    (hroom : (getRoomParticipants s roomId).length ≠ 0)
    (htarget : hasRoomParticipant s roomId targetUserId = true)
    (hcreator : getRoomCreator s roomId ≠ some kickedBy) :
    handleKickUser s roomId targetUserId kickedBy =
      (KickResult.forbidden, s) ∧
    KickResult.forbidden.status = 403 := by
  refine ⟨?_, rfl⟩
  unfold handleKickUser
  rw [if_neg hroom]
  rw [if_neg (by simp [htarget])]
  cases hg : getRoomCreator s roomId with
  | none => rfl
  | some c =>
      dsimp only
      rw [if_pos (by rintro rfl; exact hcreator hg)]

/-- Witness for C2 (amended): in `kickDemoStore` a kick of participant `u1`
by non-creator `u2` is Forbidden and leaves the store untouched. -/
theorem kick_noncreator_forbidden_witness :
    (getRoomParticipants kickDemoStore "R").length ≠ 0 ∧
    hasRoomParticipant kickDemoStore "R" "u1" = true ∧
    getRoomCreator kickDemoStore "R" ≠ some "u2" ∧
    handleKickUser kickDemoStore "R" "u1" "u2" =
      (KickResult.forbidden, kickDemoStore) :=
  ⟨by decide, by decide, by decide,
   (kick_noncreator_forbidden kickDemoStore "R" "u1" "u2" (by decide)
     (by decide) (by decide)).1⟩

/-- C3.  `handleKickUser` evaluates its rejections in source order —
404 RoomNotFound on an empty participant set, then 404 TargetNotFound, then
403 Forbidden for a non-creator kicker, then 400 InvalidSelfKick — and a
successful kick removes exactly the target's participant record and
user-room mapping while leaving creators, messages and typing state (the
`cleanupEmptyRoom` targets) untouched. -/
theorem kick_rejection_order (s : Store)
    (roomId targetUserId kickedBy : String) :
    ((getRoomParticipants s roomId).length = 0 →
      handleKickUser s roomId targetUserId kickedBy =
        (KickResult.roomNotFound, s) ∧
      KickResult.roomNotFound.status = 404) ∧
    ((getRoomParticipants s roomId).length ≠ 0 →
      hasRoomParticipant s roomId targetUserId = false →
      handleKickUser s roomId targetUserId kickedBy =
        (KickResult.targetNotFound, s) ∧
      KickResult.targetNotFound.status = 404) ∧
    ((getRoomParticipants s roomId).length ≠ 0 →
      hasRoomParticipant s roomId targetUserId = true →
      getRoomCreator s roomId ≠ some kickedBy →
      handleKickUser s roomId targetUserId kickedBy =
        (KickResult.forbidden, s) ∧
      KickResult.forbidden.status = 403) ∧
    ((getRoomParticipants s roomId).length ≠ 0 →
      hasRoomParticipant s roomId targetUserId = true →
      getRoomCreator s roomId = some kickedBy →
      targetUserId = kickedBy →
      handleKickUser s roomId targetUserId kickedBy =
        (KickResult.invalidSelfKick, s) ∧
      KickResult.invalidSelfKick.status = 400) ∧
    ((getRoomParticipants s roomId).length ≠ 0 →
      hasRoomParticipant s roomId targetUserId = true →
      getRoomCreator s roomId = some kickedBy →
      targetUserId ≠ kickedBy →
      handleKickUser s roomId targetUserId kickedBy =
        (KickResult.kicked,
         removeRoomParticipant (removeUserRoom s targetUserId) roomId
           targetUserId) ∧
      ((handleKickUser s roomId targetUserId kickedBy).2).roomCreators =
        s.roomCreators ∧
      ((handleKickUser s roomId targetUserId kickedBy).2).roomMessages =
        s.roomMessages ∧
      ((handleKickUser s roomId targetUserId kickedBy).2).typingStatus =
        s.typingStatus ∧
      ((handleKickUser s roomId targetUserId kickedBy).2).liveTimers =
        s.liveTimers) := by
  refine ⟨fun h0 => ⟨?_, rfl⟩, fun h0 ht => ⟨?_, rfl⟩,
    fun h0 ht hc => ⟨?_, rfl⟩, fun h0 ht hc hself => ⟨?_, rfl⟩,
    fun h0 ht hc hself => ⟨?_, ?_, ?_, ?_, ?_⟩⟩
  · simp [handleKickUser, h0]
  · simp [handleKickUser, h0, ht]
  · unfold handleKickUser
    rw [if_neg h0, if_neg (by simp [ht])]
    cases hg : getRoomCreator s roomId with
    | none => rfl
    | some c =>
        dsimp only
        rw [if_pos (by rintro rfl; exact hc hg)]
  · subst hself; simp [handleKickUser, h0, ht, hc]
  all_goals
    simp [handleKickUser, h0, ht, hc, hself, removeRoomParticipant,
      removeUserRoom]

/-- Witness for C3 at concrete inputs: the empty-room rejection on the fresh
store and a successful kick of `u2` by creator `u1` in `kickDemoStore`. -/
theorem kick_rejection_order_witness :
    ((getRoomParticipants Store.empty "R").length = 0 ∧
     handleKickUser Store.empty "R" "u2" "u1" =
       (KickResult.roomNotFound, Store.empty)) ∧
    ((getRoomParticipants kickDemoStore "R").length ≠ 0 ∧
     hasRoomParticipant kickDemoStore "R" "u2" = true ∧
     getRoomCreator kickDemoStore "R" = some "u1" ∧
     "u2" ≠ "u1" ∧
     handleKickUser kickDemoStore "R" "u2" "u1" =
       (KickResult.kicked,
        removeRoomParticipant (removeUserRoom kickDemoStore "u2") "R"
          "u2")) :=
  ⟨⟨by decide,
    ((kick_rejection_order Store.empty "R" "u2" "u1").1 (by decide)).1⟩,
   ⟨by decide, by decide, by decide, by decide,
    ((kick_rejection_order kickDemoStore "R" "u2" "u1").2.2.2.2 (by decide)
      (by decide) (by decide) (by decide)).1⟩⟩

/-! ### C4 — single-room membership -/

/-- C4.  A user `X` mapped to (and member of) room `A` who completes a
join-room of a different room `B` ends mapped to `B`, a participant of `B`,
and no longer a participant of `A` — membership in at most one room. -/
theorem join_single_room_membership (s : Store) (A B X nick av ts : String)
    (claims : Bool)
    (hmap : getUserRoom s X = some A)
    (_hmem : hasRoomParticipant s A X = true)
    (hAB : A ≠ B) (hB : B ≠ "") :
    getUserRoom ((handleJoinRoom s ⟨B, X, nick, av, claims⟩ ts).2) X =
      some B ∧
    hasRoomParticipant ((handleJoinRoom s ⟨B, X, nick, av, claims⟩ ts).2)
      B X = true ∧
    hasRoomParticipant ((handleJoinRoom s ⟨B, X, nick, av, claims⟩ ts).2)
      A X = false := by
  have hs1 : leavePreviousRoom s X B =
      removeUserRoom (removeRoomParticipant s A X) X := by
    unfold leavePreviousRoom
    rw [hmap]
    dsimp only
    rw [if_pos hAB]
  refine ⟨?_, ?_, ?_⟩
  · show getUserRoom (resolveCreator (joinRoom (leavePreviousRoom s X B) X B
      ⟨nick, av, ts, claims⟩) B X claims) X = some B
    unfold getUserRoom
    rw [userRooms_resolveCreator]
    simp [joinRoom, setRoomParticipant, setUserRoom, hB]
  · show hasRoomParticipant (resolveCreator (joinRoom (leavePreviousRoom s X B)
      X B ⟨nick, av, ts, claims⟩) B X claims) B X = true
    unfold hasRoomParticipant
    rw [roomParticipants_resolveCreator]
    simp [joinRoom, setRoomParticipant, alGet_alSet_self]
  · show hasRoomParticipant (resolveCreator (joinRoom (leavePreviousRoom s X B)
      X B ⟨nick, av, ts, claims⟩) B X claims) A X = false
    unfold hasRoomParticipant
    rw [roomParticipants_resolveCreator]
    simp [joinRoom, setRoomParticipant, setUserRoom, hAB, hs1,
      removeUserRoom, removeRoomParticipant, alGet_alDel_self]

/-- Witness for C4: `uX`, a member of room `A`, joins room `B`. -/
theorem join_single_room_membership_witness :
    getUserRoom (joinRoom Store.empty "uX" "A" ⟨"Ann", "a", "t0", true⟩)
      "uX" = some "A" ∧
    hasRoomParticipant (joinRoom Store.empty "uX" "A" ⟨"Ann", "a", "t0", true⟩)
      "A" "uX" = true ∧
    getUserRoom ((handleJoinRoom
      (joinRoom Store.empty "uX" "A" ⟨"Ann", "a", "t0", true⟩)
      ⟨"B", "uX", "Ann", "a", false⟩ "t1").2) "uX" = some "B" ∧
    hasRoomParticipant ((handleJoinRoom
      (joinRoom Store.empty "uX" "A" ⟨"Ann", "a", "t0", true⟩)
      ⟨"B", "uX", "Ann", "a", false⟩ "t1").2) "B" "uX" = true ∧
    hasRoomParticipant ((handleJoinRoom
      (joinRoom Store.empty "uX" "A" ⟨"Ann", "a", "t0", true⟩)
      ⟨"B", "uX", "Ann", "a", false⟩ "t1").2) "A" "uX" = false := by
  have h := join_single_room_membership
    (joinRoom Store.empty "uX" "A" ⟨"Ann", "a", "t0", true⟩)
    "A" "B" "uX" "Ann" "a" "t1" false (by decide) (by decide) (by decide)
    (by decide)
  exact ⟨by decide, by decide, h.1, h.2.1, h.2.2⟩

/-! ### C5 — the 100-message cap -/

/-- Dropping the over-cap prefix of `x` before appending `t` observes the
same final window as dropping it afterwards. -/
theorem drop_cap_append {α : Type} (x t : List α) :
    ((x.drop (x.length - 100)) ++ t).drop
      (((x.drop (x.length - 100)) ++ t).length - 100) =
    (x ++ t).drop ((x ++ t).length - 100) := by
  by_cases hx : x.length ≤ 100
  · rw [Nat.sub_eq_zero_of_le hx, List.drop_zero]
  · push_neg at hx
    have hlen : (x.drop (x.length - 100)).length = 100 := by
      rw [List.length_drop]; omega
    have hamount : ((x.drop (x.length - 100)) ++ t).length - 100 = t.length := by
      rw [List.length_append, hlen]; omega
    have hamount2 : (x ++ t).length - 100 = (x.length - 100) + t.length := by
      rw [List.length_append]; omega
    rw [hamount, hamount2, ← List.drop_drop,
      List.drop_append_of_le_length (show x.length - 100 ≤ x.length by omega)]

/-- Folding `pushCapped` from a within-cap list observes the final
100-element window of the full append sequence. -/
theorem foldl_pushCapped (l : List Message) :
    ∀ init : List Message, init.length ≤ 100 →
      l.foldl pushCapped init = (init ++ l).drop ((init ++ l).length - 100) := by
  induction l with
  | nil =>
      intro init h
      simp [Nat.sub_eq_zero_of_le h]
  | cons m t ih =>
      intro init h
      have hstep : pushCapped init m =
          (init ++ [m]).drop ((init ++ [m]).length - 100) := by
        unfold pushCapped
        by_cases hlen : (init ++ [m]).length > 100
        · rw [if_pos hlen]
        · rw [if_neg hlen]
          push_neg at hlen
          rw [Nat.sub_eq_zero_of_le hlen, List.drop_zero]
      have hle : (pushCapped init m).length ≤ 100 := by
        rw [hstep, List.length_drop]
        omega
      rw [List.foldl_cons, ih _ hle, hstep, drop_cap_append]
      simp

/-- The per-room message list of a fold of `addRoomMessage` calls is the
corresponding fold of `pushCapped` steps. -/
theorem roomMessages_foldl_addRoomMessage (roomId : String)
    (l : List Message) :
    ∀ s : Store,
      (l.foldl (fun st m => addRoomMessage st roomId m) s).roomMessages roomId
        = l.foldl pushCapped (s.roomMessages roomId) := by
  induction l with
  | nil => intro s; rfl
  | cons m t ih =>
      intro s
      rw [List.foldl_cons, List.foldl_cons, ih]
      congr 1
      simp [addRoomMessage]

/-- C5.  Appending more than 100 messages to a fresh room leaves
`getRoomMessages` returning exactly 100 messages: the final 100 of the
append sequence, in insertion order (oldest retained first) — capacity 100,
oldest evicted first. -/
theorem message_cap (s : Store) (roomId : String) (l : List Message)
    (hinit : s.roomMessages roomId = [])
    (hlen : 100 < l.length) :
    getRoomMessages (l.foldl (fun st m => addRoomMessage st roomId m) s)
      roomId = l.drop (l.length - 100) ∧
    (getRoomMessages (l.foldl (fun st m => addRoomMessage st roomId m) s)
      roomId).length = 100 := by
  have h1 : getRoomMessages
      (l.foldl (fun st m => addRoomMessage st roomId m) s) roomId =
      l.drop (l.length - 100) := by
    unfold getRoomMessages
    rw [roomMessages_foldl_addRoomMessage, hinit,
      foldl_pushCapped l [] (by simp)]
    simp
  refine ⟨h1, ?_⟩
  rw [h1, List.length_drop]
  omega

/-- A demo message for the cap witness. -/
def demoMessage (i : Nat) : Message :=
  ⟨toString i, "hello", "u1", "Alice", "a", isoOfMs i, false⟩

/-- 150 demo messages. -/
def demoMessages : List Message := (List.range 150).map demoMessage

/-- Witness for C5: 150 appends to the fresh room `R` leave the final
100-message window. -/
theorem message_cap_witness :
    Store.empty.roomMessages "R" = [] ∧
    100 < demoMessages.length ∧
    getRoomMessages (demoMessages.foldl
      (fun st m => addRoomMessage st "R" m) Store.empty) "R" =
      demoMessages.drop (demoMessages.length - 100) ∧
    (getRoomMessages (demoMessages.foldl
      (fun st m => addRoomMessage st "R" m) Store.empty) "R").length = 100 := by
  have h := message_cap Store.empty "R" demoMessages rfl
    (by simp [demoMessages])
  exact ⟨rfl, by simp [demoMessages], h.1, h.2⟩

/-! ### C6 — idempotence of `cleanupEmptyRoom` -/

theorem roomParticipants_cleanupEmptyRoom (s : Store) (roomId : String) :
    (cleanupEmptyRoom s roomId).roomParticipants = s.roomParticipants := by
  unfold cleanupEmptyRoom
  split <;> rfl

/-- C6.  `cleanupEmptyRoom` is idempotent: on a room with zero participants
a second consecutive call changes nothing, and on a room with at least one
participant a single call is a strict no-op. -/
theorem cleanupEmptyRoom_idempotent (s : Store) (roomId : String) :
    ((s.roomParticipants roomId).length = 0 →
      cleanupEmptyRoom (cleanupEmptyRoom s roomId) roomId =
        cleanupEmptyRoom s roomId) ∧
    ((s.roomParticipants roomId).length ≠ 0 →
      cleanupEmptyRoom s roomId = s) := by
  constructor
  · intro h
    have h1 : cleanupEmptyRoom s roomId =
        { s with
          roomCreators := fun r => if r = roomId then none else s.roomCreators r,
          roomMessages := fun r => if r = roomId then [] else s.roomMessages r,
          typingStatus := fun r => if r = roomId then [] else s.typingStatus r,
          liveTimers := (s.typingStatus roomId).foldl
            (fun ts p => clearTimeoutOpt ts p.2.timerId) s.liveTimers } := by
      unfold cleanupEmptyRoom
      rw [if_pos h]
    rw [h1]
    unfold cleanupEmptyRoom
    rw [if_pos h]
    refine Store.ext rfl rfl ?_ ?_ ?_ ?_ rfl
    · funext r
      by_cases hr : r = roomId <;> simp [hr]
    · funext r
      by_cases hr : r = roomId <;> simp [hr]
    · funext r
      by_cases hr : r = roomId <;> simp [hr]
    · simp
  · intro h
    unfold cleanupEmptyRoom
    rw [if_neg h]

/-- Witness for C6: the double cleanup on the fresh (empty) room `R` and
the no-op cleanup on the populated room of `kickDemoStore`. -/
theorem cleanupEmptyRoom_idempotent_witness :
    ((Store.empty.roomParticipants "R").length = 0 ∧
     cleanupEmptyRoom (cleanupEmptyRoom Store.empty "R") "R" =
       cleanupEmptyRoom Store.empty "R") ∧
    ((kickDemoStore.roomParticipants "R").length ≠ 0 ∧
     cleanupEmptyRoom kickDemoStore "R" = kickDemoStore) :=
  ⟨⟨rfl, (cleanupEmptyRoom_idempotent Store.empty "R").1 rfl⟩,
   ⟨by decide, (cleanupEmptyRoom_idempotent kickDemoStore "R").2 (by decide)⟩⟩

/-! ### C7 — send-message membership gate -/

/-- C7.  `handleSendMessage` rejects a non-participant sender with 403 and
appends nothing; for a participant it constructs a message whose id and
timestamp come from the request-time clock, appends it via `addRoomMessage`,
and returns it in the success response. -/
theorem send_message_membership (s : Store) (inp : SendInput) (now : Nat) :
    (hasRoomParticipant s inp.roomId inp.userId = false →
      handleSendMessage s inp now = (SendResult.notInRoom, s) ∧
      SendResult.notInRoom.status = 403) ∧
    (hasRoomParticipant s inp.roomId inp.userId = true →
      handleSendMessage s inp now =
        (SendResult.sent (builtMessage inp now),
         addRoomMessage s inp.roomId (builtMessage inp now)) ∧
      (builtMessage inp now).id = toString now ∧
      (builtMessage inp now).timestamp = isoOfMs now ∧
      ((s.roomMessages inp.roomId).length < 100 →
        getRoomMessages ((handleSendMessage s inp now).2) inp.roomId =
          getRoomMessages s inp.roomId ++ [builtMessage inp now])) := by
  constructor
  · intro h
    refine ⟨?_, rfl⟩
    unfold handleSendMessage
    rw [if_neg (by simp [h])]
  · intro h
    have hmain : handleSendMessage s inp now =
        (SendResult.sent (builtMessage inp now),
         addRoomMessage s inp.roomId (builtMessage inp now)) := by
      unfold handleSendMessage
      rw [if_pos h]
    refine ⟨hmain, rfl, rfl, ?_⟩
    intro hlen
    rw [hmain]
    show getRoomMessages (addRoomMessage s inp.roomId (builtMessage inp now))
      inp.roomId = getRoomMessages s inp.roomId ++ [builtMessage inp now]
    unfold getRoomMessages addRoomMessage
    dsimp only
    rw [if_pos rfl]
    unfold pushCapped
    rw [if_neg (by simp; omega)]

/-- Witness for C7: a stranger's send into the fresh store is rejected 403;
participant `u1` of `kickDemoStore` sends and the message is appended. -/
theorem send_message_membership_witness :
    (hasRoomParticipant Store.empty "R" "u9" = false ∧
     handleSendMessage Store.empty ⟨"R", "hi", "u9", "Nil", "n", false⟩ 7 =
       (SendResult.notInRoom, Store.empty)) ∧
    (hasRoomParticipant kickDemoStore "R" "u1" = true ∧
     handleSendMessage kickDemoStore ⟨"R", "hi", "u1", "Alice", "a", false⟩ 42 =
       (SendResult.sent
          (builtMessage ⟨"R", "hi", "u1", "Alice", "a", false⟩ 42),
        addRoomMessage kickDemoStore "R"
          (builtMessage ⟨"R", "hi", "u1", "Alice", "a", false⟩ 42)) ∧
     getRoomMessages ((handleSendMessage kickDemoStore
        ⟨"R", "hi", "u1", "Alice", "a", false⟩ 42).2) "R" =
       getRoomMessages kickDemoStore "R" ++
         [builtMessage ⟨"R", "hi", "u1", "Alice", "a", false⟩ 42]) :=
  ⟨⟨by decide,
    ((send_message_membership Store.empty ⟨"R", "hi", "u9", "Nil", "n", false⟩
      7).1 (by decide)).1⟩,
   ⟨by decide,
    ((send_message_membership kickDemoStore
      ⟨"R", "hi", "u1", "Alice", "a", false⟩ 42).2 (by decide)).1,
    ((send_message_membership kickDemoStore
      ⟨"R", "hi", "u1", "Alice", "a", false⟩ 42).2 (by decide)).2.2.2
      (by decide)⟩⟩

/-! ### C9 — primary vs fallback message order -/

/-- Taking the cap of the right summand first does not change the window. -/
theorem take_append_take {α : Type} (x y : List α) :
    (x ++ y.take 100).take 100 = (x ++ y).take 100 := by
  rw [List.take_append_eq_append_take, List.take_append_eq_append_take,
    List.take_take, Nat.min_eq_left (Nat.sub_le _ _)]

/-- Folding `lpushTrimmed` from a within-cap list observes the first
100 elements of the reversed append sequence (newest first). -/
theorem foldl_lpushTrimmed (l : List Message) :
    ∀ init : List Message, init.length ≤ 100 →
      l.foldl lpushTrimmed init = (l.reverse ++ init).take 100 := by
  induction l with
  | nil =>
      intro init h
      simp [List.take_of_length_le h]
  | cons m t ih =>
      intro init h
      have hle : (lpushTrimmed init m).length ≤ 100 := by
        unfold lpushTrimmed
        rw [List.length_take]
        exact Nat.min_le_left _ _
      rw [List.foldl_cons, ih _ hle]
      show (t.reverse ++ (m :: init).take 100).take 100 =
        ((m :: t).reverse ++ init).take 100
      rw [take_append_take, List.reverse_cons, List.append_assoc,
        List.singleton_append]

/-- Two concrete distinct messages for the order counterexample. -/
def msgA : Message := ⟨"1", "first", "u1", "Alice", "a", "iso:1", false⟩

/-- Second concrete message. -/
def msgB : Message := ⟨"2", "second", "u1", "Alice", "a", "iso:2", false⟩

/-- C9 counterexample: after appending `msgA` then `msgB`, the primary
(lpush/lrange) path observes `[msgB, msgA]` while the fallback (array push)
path observes `[msgA, msgB]` — the two observed lists differ. -/
theorem backend_message_order_counterexample :
    primaryObservedMessages [msgA, msgB] = [msgB, msgA] ∧
    fallbackObservedMessages [msgA, msgB] = [msgA, msgB] ∧
    primaryObservedMessages [msgA, msgB] ≠
      fallbackObservedMessages [msgA, msgB] :=
  ⟨by decide, by decide, by decide⟩

/-- C9 (amended).  The two backend paths observe the same 100 most recent
messages but in opposite orders: the primary path yields the reversed
append sequence capped at 100 (newest first), the fallback path yields the
final 100 in insertion order (oldest first), and the fallback list is
exactly the reverse of the primary list. -/
theorem backend_message_order (l : List Message) :
    primaryObservedMessages l = (l.reverse).take 100 ∧
    fallbackObservedMessages l = l.drop (l.length - 100) ∧
    fallbackObservedMessages l = (primaryObservedMessages l).reverse := by
  have hp : primaryObservedMessages l = (l.reverse).take 100 := by
    unfold primaryObservedMessages
    rw [foldl_lpushTrimmed l [] (by simp)]
    simp
  have hf : fallbackObservedMessages l = l.drop (l.length - 100) := by
    unfold fallbackObservedMessages
    rw [foldl_pushCapped l [] (by simp)]
    simp
  refine ⟨hp, hf, ?_⟩
  rw [hp, hf, ← List.rtake_eq_reverse_take_reverse]
  rfl

/-! ### C10 — get-messages has no existence check, get-typing-status does -/

/-- C10.  `handleGetMessages` performs no room-existence or membership
check: for every room, including an empty or never-used one, it answers
success (status 200, never 404) with the possibly empty message list —
whereas `handleGetTypingStatus` on a room with zero participants answers a
404 Room-not-found error. -/
theorem get_messages_no_check (s : Store) (roomId : String) (now : Nat) :
    handleGetMessages s roomId =
      (GetMessagesResult.ok (getRoomMessages s roomId), s) ∧
    (handleGetMessages s roomId).1.status = 200 ∧
    (handleGetMessages s roomId).1.status ≠ 404 ∧
    (s.roomMessages roomId = [] →
      handleGetMessages s roomId = (GetMessagesResult.ok [], s)) ∧
    ((getRoomParticipants s roomId).length = 0 →
      handleGetTypingStatus s roomId now =
        (TypingStatusResult.roomNotFound, s) ∧
      TypingStatusResult.roomNotFound.status = 404) := by
  refine ⟨rfl, rfl, by simp [handleGetMessages, GetMessagesResult.status],
    ?_, ?_⟩
  · intro h
    unfold handleGetMessages getRoomMessages
    rw [h]
  · intro h
    refine ⟨?_, rfl⟩
    unfold handleGetTypingStatus
    rw [if_pos h]

/-- Witness for C10: the fresh store's never-used room `R` — 200 with `[]`
from get-messages, 404 from get-typing-status. -/
theorem get_messages_no_check_witness :
    (Store.empty.roomMessages "R" = [] ∧
     handleGetMessages Store.empty "R" = (GetMessagesResult.ok [], Store.empty)) ∧
    ((getRoomParticipants Store.empty "R").length = 0 ∧
     handleGetTypingStatus Store.empty "R" 0 =
       (TypingStatusResult.roomNotFound, Store.empty)) :=
  ⟨⟨rfl, (get_messages_no_check Store.empty "R" 0).2.2.2.1 rfl⟩,
   ⟨rfl, ((get_messages_no_check Store.empty "R" 0).2.2.2.2 rfl).1⟩⟩

/-! ### C8 — typing TTL, lazy expiry and timer replacement -/

theorem mem_clearTimeoutOpt (timers : List Nat) (tid : Option Nat) (t : Nat)
    (h : t ∈ clearTimeoutOpt timers tid) : t ∈ timers := by
  cases tid with
  | none => exact h
  | some x => exact List.mem_of_mem_erase h

theorem setTypingTrue_typingStatus (s : Store) (roomId userId nick : String)
    (now : Nat) :
    (setUserTypingStatus s roomId userId nick true now).typingStatus roomId =
      alSet (s.typingStatus roomId) userId
        ⟨nick, now + 5000, some s.nextTimerId⟩ := by
  simp [setUserTypingStatus]

theorem setTypingTrue_liveTimers (s : Store) (roomId userId nick : String)
    (now : Nat) :
    (setUserTypingStatus s roomId userId nick true now).liveTimers =
      s.nextTimerId :: clearTimeoutOpt s.liveTimers
        ((alGet (s.typingStatus roomId) userId).bind TypingEntry.timerId) := by
  simp [setUserTypingStatus]

theorem setTypingTrue_nextTimerId (s : Store) (roomId userId nick : String)
    (now : Nat) :
    (setUserTypingStatus s roomId userId nick true now).nextTimerId =
      s.nextTimerId + 1 := by
  simp [setUserTypingStatus]

/-- C8.  (i) After `setUserTypingStatus(room, user, nick, true)` at clock
`now`, a `getRoomTypingUsers` read strictly beyond the 5-second TTL no
longer lists `nick` and lazily deletes the expired entry at read time.
(ii) A second `setUserTypingStatus(..., true)` before expiry cancels and
replaces the previous timer: the first timer id is no longer live, the
replacement is live exactly once, and the user's entry carries exactly the
replacement timer — at most one timer per (room, user). -/
theorem typing_ttl_and_timer_replacement (s : Store)
    (roomId userId nick nick2 : String) (excl : Option String)
    (now nowR now2 : Nat) :
    (keysNodup (s.typingStatus roomId) →
     (∀ p ∈ s.typingStatus roomId, p.1 ≠ userId → p.2.nickname ≠ nick) →
     now + 5000 < nowR →
     (nick ∉ (getRoomTypingUsers (setUserTypingStatus s roomId userId nick
        true now) roomId excl nowR).1 ∧
      alGet (((getRoomTypingUsers (setUserTypingStatus s roomId userId nick
        true now) roomId excl nowR).2).typingStatus roomId) userId = none)) ∧
    ((∀ t ∈ s.liveTimers, t < s.nextTimerId) →
     (s.nextTimerId ∉ (setUserTypingStatus (setUserTypingStatus s roomId
        userId nick true now) roomId userId nick2 true now2).liveTimers ∧
      ((setUserTypingStatus (setUserTypingStatus s roomId userId nick true
        now) roomId userId nick2 true now2).liveTimers).count
        (s.nextTimerId + 1) = 1 ∧
      alGet ((setUserTypingStatus (setUserTypingStatus s roomId userId nick
        true now) roomId userId nick2 true now2).typingStatus roomId) userId
        = some ⟨nick2, now2 + 5000, some (s.nextTimerId + 1)⟩)) := by
  constructor
  · intro hnd hnick hexp
    have hstat := setTypingTrue_typingStatus s roomId userId nick now
    constructor
    · intro hmem
      unfold getRoomTypingUsers at hmem
      dsimp only at hmem
      rw [hstat, List.mem_map] at hmem
      obtain ⟨p, hpf, hpn⟩ := hmem
      rw [List.mem_filter] at hpf
      obtain ⟨hpmem, hpred⟩ := hpf
      by_cases hkey : p.1 = userId
      · have hpe : p = (userId, ⟨nick, now + 5000, some s.nextTimerId⟩) :=
          eq_of_mem_alSet_key _ _ _ hnd p hpmem hkey
        rw [hpe] at hpred
        simp only [Bool.and_eq_true, decide_eq_true_eq] at hpred
        omega
      · rcases mem_alSet _ _ _ _ hpmem with he | hold
        · exact hkey (by rw [he])
        · exact hnick p hold hkey hpn
    · unfold getRoomTypingUsers
      dsimp only
      rw [if_pos rfl, hstat]
      apply alGet_filter_eq_none
      intro p hp hkey
      have hpe : p = (userId, ⟨nick, now + 5000, some s.nextTimerId⟩) :=
        eq_of_mem_alSet_key _ _ _ hnd p hp hkey
      rw [hpe]
      simp only [decide_eq_false_iff_not]
      omega
  · intro htf
    have h1stat := setTypingTrue_typingStatus s roomId userId nick now
    have h1timers := setTypingTrue_liveTimers s roomId userId nick now
    have h1next := setTypingTrue_nextTimerId s roomId userId nick now
    have hold2 : (alGet ((setUserTypingStatus s roomId userId nick true
        now).typingStatus roomId) userId).bind TypingEntry.timerId =
        some s.nextTimerId := by
      rw [h1stat, alGet_alSet_self]
      rfl
    have h2timers : (setUserTypingStatus (setUserTypingStatus s roomId userId
        nick true now) roomId userId nick2 true now2).liveTimers =
        (s.nextTimerId + 1) :: clearTimeoutOpt s.liveTimers
          ((alGet (s.typingStatus roomId) userId).bind TypingEntry.timerId) := by
      rw [setTypingTrue_liveTimers, hold2, h1next, h1timers]
      show _ :: List.erase _ _ = _
      rw [List.erase_cons_head]
    have h2stat : (setUserTypingStatus (setUserTypingStatus s roomId userId
        nick true now) roomId userId nick2 true now2).typingStatus roomId =
        alSet ((setUserTypingStatus s roomId userId nick true
          now).typingStatus roomId) userId
          ⟨nick2, now2 + 5000, some (s.nextTimerId + 1)⟩ := by
      rw [setTypingTrue_typingStatus, h1next]
    have hrest : ∀ t ∈ clearTimeoutOpt s.liveTimers
        ((alGet (s.typingStatus roomId) userId).bind TypingEntry.timerId),
        t < s.nextTimerId :=
      fun t ht => htf t (mem_clearTimeoutOpt _ _ _ ht)
    refine ⟨?_, ?_, ?_⟩
    · rw [h2timers]
      intro hmem
      rcases List.mem_cons.mp hmem with he | hm
      · omega
      · exact absurd (hrest _ hm) (by omega)
    · rw [h2timers, List.count_cons_self]
      have : (clearTimeoutOpt s.liveTimers
          ((alGet (s.typingStatus roomId) userId).bind
            TypingEntry.timerId)).count (s.nextTimerId + 1) = 0 := by
        rw [List.count_eq_zero]
        intro hmem
        exact absurd (hrest _ hmem) (by omega)
      rw [this]
    · rw [h2stat, alGet_alSet_self]

/-- Witness for C8 on the fresh store: `u1` types at clock 0; a read at
clock 6000 no longer lists `Alice` and deletes the entry; typing again at
clock 1000 replaces timer 0 by timer 1. -/
theorem typing_ttl_and_timer_replacement_witness :
    (keysNodup (Store.empty.typingStatus "R") ∧
     (0 : Nat) + 5000 < 6000 ∧
     "Alice" ∉ (getRoomTypingUsers (setUserTypingStatus Store.empty "R" "u1"
        "Alice" true 0) "R" none 6000).1 ∧
     alGet (((getRoomTypingUsers (setUserTypingStatus Store.empty "R" "u1"
        "Alice" true 0) "R" none 6000).2).typingStatus "R") "u1" = none) ∧
    (Store.empty.nextTimerId ∉ (setUserTypingStatus (setUserTypingStatus
        Store.empty "R" "u1" "Alice" true 0) "R" "u1" "Alice" true
        1000).liveTimers ∧
     ((setUserTypingStatus (setUserTypingStatus Store.empty "R" "u1" "Alice"
        true 0) "R" "u1" "Alice" true 1000).liveTimers).count
        (Store.empty.nextTimerId + 1) = 1 ∧
     alGet ((setUserTypingStatus (setUserTypingStatus Store.empty "R" "u1"
        "Alice" true 0) "R" "u1" "Alice" true 1000).typingStatus "R") "u1" =
       some ⟨"Alice", 1000 + 5000, some (Store.empty.nextTimerId + 1)⟩) := by
  have ha := (typing_ttl_and_timer_replacement Store.empty "R" "u1" "Alice"
    "Alice" none 0 6000 1000).1 (by simp [keysNodup, Store.empty])
    (by simp [Store.empty]) (by decide)
  have hb := (typing_ttl_and_timer_replacement Store.empty "R" "u1" "Alice"
    "Alice" none 0 6000 1000).2 (by simp [Store.empty])
  exact ⟨⟨by simp [keysNodup, Store.empty], by decide, ha.1, ha.2⟩,
    ⟨hb.1, hb.2.1, hb.2.2⟩⟩

end ChatTrix
